import Mathlib

set_option maxRecDepth 10000

/-!
Verification of the pair-HMM support header (`template.h`): the
precision-parameterized numeric contexts, the symbol encoding table
`ConvertChar`, and the test-case ingestion routine `read_testcase`.

Floating-point arithmetic of the source (`pow`, `ldexp`, `log10`) is
modelled in exact real arithmetic; machine characters are Lean `Char`s
and C `int`s are `Int`.
-/

/-- Model of C `ldexp(m, e) = m * 2^e` in exact real arithmetic. -/
noncomputable def ldexpR (m : ℝ) (e : ℤ) : ℝ := m * (2 : ℝ) ^ e

namespace ContextD

/-- `Context<double>` table: `ph2pr[x] = pow(10.0, -((double)x)/10.0)` for
`x = 0..127`, modelled in exact real arithmetic. -/
noncomputable def ph2pr (x : Fin 128) : ℝ := (10 : ℝ) ^ (-((x : ℕ) : ℝ) / 10)

/-- `INITIAL_CONSTANT = ldexp(1.0, 1020.0)`. -/
noncomputable def INITIAL_CONSTANT : ℝ := ldexpR 1 1020

/-- `LOG10_INITIAL_CONSTANT = log10(INITIAL_CONSTANT)`. -/
noncomputable def LOG10_INITIAL_CONSTANT : ℝ := Real.logb 10 INITIAL_CONSTANT

/-- `RESULT_THRESHOLD = 0.0`. -/
noncomputable def RESULT_THRESHOLD : ℝ := 0

end ContextD

namespace ContextF

/-- `Context<float>` table: `ph2pr[x] = powf(10.f, -((float)x)/10.f)` for
`x = 0..127`, modelled in exact real arithmetic. -/
noncomputable def ph2pr (x : Fin 128) : ℝ := (10 : ℝ) ^ (-((x : ℕ) : ℝ) / 10)

/-- `INITIAL_CONSTANT = ldexpf(1.f, 120.f)`. -/
noncomputable def INITIAL_CONSTANT : ℝ := ldexpR 1 120

/-- `LOG10_INITIAL_CONSTANT = log10f(INITIAL_CONSTANT)`. -/
noncomputable def LOG10_INITIAL_CONSTANT : ℝ := Real.logb 10 INITIAL_CONSTANT

/-- `RESULT_THRESHOLD = ldexpf(1.f, -110.f)`. -/
noncomputable def RESULT_THRESHOLD : ℝ := ldexpR 1 (-110)

end ContextF

/-- C1: for each precision the constructor fills `phredToProb` with
`10^(-x/10)` (so modelled), hence `phredToProb[0] = 1` and the table is
strictly decreasing over indices `0..127` in both precisions. -/
theorem C1_ph2pr_one_and_strict_decreasing :
    ContextD.ph2pr 0 = 1 ∧ ContextF.ph2pr 0 = 1 ∧
    (∀ i j : Fin 128, i < j → ContextD.ph2pr j < ContextD.ph2pr i) ∧
    (∀ i j : Fin 128, i < j → ContextF.ph2pr j < ContextF.ph2pr i) := by
  have h10 : (1 : ℝ) < 10 := by norm_num
  refine ⟨?_, ?_, ?_, ?_⟩
  · simp [ContextD.ph2pr]
  · simp [ContextF.ph2pr]
  · intro i j h
    have hij : ((i : ℕ) : ℝ) < ((j : ℕ) : ℝ) := by exact_mod_cast h
    unfold ContextD.ph2pr
    rw [Real.rpow_lt_rpow_left_iff h10]
    linarith
  · intro i j h
    have hij : ((i : ℕ) : ℝ) < ((j : ℕ) : ℝ) := by exact_mod_cast h
    unfold ContextF.ph2pr
    rw [Real.rpow_lt_rpow_left_iff h10]
    linarith

/-- Witness for C1 at the concrete indices 0 and 1. -/
theorem C1_witness :
    ContextD.ph2pr 1 < ContextD.ph2pr 0 ∧ ContextF.ph2pr 1 < ContextF.ph2pr 0 :=
  ⟨C1_ph2pr_one_and_strict_decreasing.2.2.1 0 1 (by decide),
   C1_ph2pr_one_and_strict_decreasing.2.2.2 0 1 (by decide)⟩

/-- C5: `INITIAL_CONSTANT` is `2^1020` (double) and `2^120` (single), and in
both precisions `LOG10_INITIAL_CONSTANT` is exactly `log10` of it, which
evaluates to `1020 * log10 2` resp. `120 * log10 2`. -/
theorem C5_initial_scale :
    ContextD.INITIAL_CONSTANT = (2 : ℝ) ^ (1020 : ℕ) ∧
    ContextF.INITIAL_CONSTANT = (2 : ℝ) ^ (120 : ℕ) ∧
    ContextD.LOG10_INITIAL_CONSTANT = Real.logb 10 ContextD.INITIAL_CONSTANT ∧
    ContextF.LOG10_INITIAL_CONSTANT = Real.logb 10 ContextF.INITIAL_CONSTANT ∧
    ContextD.LOG10_INITIAL_CONSTANT = 1020 * Real.logb 10 2 ∧
    ContextF.LOG10_INITIAL_CONSTANT = 120 * Real.logb 10 2 := by
  have hD : ContextD.INITIAL_CONSTANT = (2 : ℝ) ^ (1020 : ℕ) := by
    show (1 : ℝ) * (2 : ℝ) ^ (1020 : ℤ) = (2 : ℝ) ^ (1020 : ℕ)
    rw [one_mul]
    norm_num
  have hF : ContextF.INITIAL_CONSTANT = (2 : ℝ) ^ (120 : ℕ) := by
    show (1 : ℝ) * (2 : ℝ) ^ (120 : ℤ) = (2 : ℝ) ^ (120 : ℕ)
    rw [one_mul]
    norm_num
  refine ⟨hD, hF, rfl, rfl, ?_, ?_⟩
  · show Real.logb 10 ContextD.INITIAL_CONSTANT = 1020 * Real.logb 10 2
    rw [hD, Real.logb_pow]
    norm_num
  · show Real.logb 10 ContextF.INITIAL_CONSTANT = 120 * Real.logb 10 2
    rw [hF, Real.logb_pow]
    norm_num

/-- C6: `RESULT_THRESHOLD` is exactly `0` for double precision and the
strictly positive `2^(-110)` for single precision. -/
theorem C6_result_floor :
    ContextD.RESULT_THRESHOLD = 0 ∧
    ContextF.RESULT_THRESHOLD = (2 : ℝ) ^ (-110 : ℤ) ∧
    0 < ContextF.RESULT_THRESHOLD := by
  refine ⟨rfl, one_mul _, ?_⟩
  show (0 : ℝ) < ldexpR 1 (-110)
  unfold ldexpR
  positivity

namespace ConvertChar

/-- `static uint8_t conversionTable[255]` after `init()`: static storage is
zero-initialized, then `init` writes the five nucleotide codes
(`'A'`=65 ↦ 0, `'C'`=67 ↦ 1, `'T'`=84 ↦ 2, `'G'`=71 ↦ 3, `'N'`=78 ↦ 4). -/
def conversionTable : List Nat :=
  (((((List.replicate 255 0).set 65 0).set 67 1).set 84 2).set 71 3).set 78 4

/-- `get(input)` is `conversionTable[input]`; an index beyond the 255-entry
table (an out-of-bounds read in C) is modelled as `none`. -/
def get (input : Nat) : Option Nat := conversionTable[input]?

end ConvertChar

/-- C7 counterexample: the byte 255 is a legal `uint8_t` argument to `get`,
but the backing table has only 255 entries (indices 0..254), so `get 255` is
an out-of-bounds access, modelled as `none`. -/
theorem C7_counterexample_get_255_out_of_bounds :
    ConvertChar.get 255 = none := by decide

/-- C7 (amended): for every byte `b` in `0..254` — not `0..255` — the lookup
`get b` is an in-bounds access on the 255-entry backing table. -/
theorem C7_get_in_bounds_below_255 (b : ℕ) (h : b < 255) :
    (ConvertChar.get b).isSome := by
  have hlen : ConvertChar.conversionTable.length = 255 := by
    simp [ConvertChar.conversionTable]
  unfold ConvertChar.get
  rw [List.getElem?_eq_getElem (hlen ▸ h)]
  rfl

/-- Witness for the amended C7 at the concrete byte 0. -/
theorem C7_witness : (ConvertChar.get 0).isSome :=
  C7_get_in_bounds_below_255 0 (by decide)

/-- C9: after `init()`, the table maps 'A','C','T','G','N' to 0,1,2,3,4, the
five codes are pairwise distinct, and 'N' carries the ambiguous code 4. -/
theorem C9_table_codes :
    ConvertChar.get (Char.toNat 'A') = some 0 ∧
    ConvertChar.get (Char.toNat 'C') = some 1 ∧
    ConvertChar.get (Char.toNat 'T') = some 2 ∧
    ConvertChar.get (Char.toNat 'G') = some 3 ∧
    ConvertChar.get (Char.toNat 'N') = some 4 ∧
    ([ConvertChar.get (Char.toNat 'A'), ConvertChar.get (Char.toNat 'C'),
      ConvertChar.get (Char.toNat 'T'), ConvertChar.get (Char.toNat 'G'),
      ConvertChar.get (Char.toNat 'N')] : List (Option Nat)).Nodup := by
  decide

/-- C10: after `init()`, every byte below 255 other than the five nucleotide
letters reads the zero-initialized table entry, so `get` returns 0 there —
the same code `get 'A'` returns. -/
theorem C10_unpopulated_entries_zero (b : Fin 255)
    (h : (b : ℕ) ∉ ([65, 67, 84, 71, 78] : List ℕ)) :
    ConvertChar.get b = some 0 ∧
    ConvertChar.get b = ConvertChar.get (Char.toNat 'A') := by
  revert h
  revert b
  decide

/-- Witness for C10 at the concrete byte 66 ('B'). -/
theorem C10_witness :
    ConvertChar.get 66 = some 0 ∧
    ConvertChar.get 66 = ConvertChar.get (Char.toNat 'A') :=
  C10_unpopulated_entries_zero ⟨66, by decide⟩ (by decide)

/-- The whitespace class of `sscanf`'s `%s` directive (C `isspace`). -/
def isSpaceChar (ch : Char) : Bool :=
  ch = ' ' || ch = '\t' || ch = '\n' || ch = '\x0b' || ch = '\x0c' || ch = '\r'

/-- The token structure `sscanf(line, "%s %s %s %s %s %s\n", ...)` sees:
maximal whitespace-free runs of the line, in order. -/
def tokenize (l : List Char) : List (List Char) :=
  (l.splitOnP isSpaceChar).filter (fun t => !t.isEmpty)

/-- The terminating `NUL` a `%s` conversion appends; reading the score
strings past their own length in C hits this byte first. -/
def nullChar : Char := Char.ofNat 0

/-- The implicit `char` → `int` widening in `tc->irs[x] = tc->rs[x]`. -/
def charToInt (ch : Char) : Int := (ch.toNat : Int)

/-- The `testcase` struct. Each field is `none` while its C counterpart is
unallocated or holds indeterminate (never-written) data, and `some v` once
`read_testcase` has stored `v` in it. -/
structure testcase where
  rslen : Option Nat
  haplen : Option Nat
  q : Option (List Int)
  i : Option (List Int)
  d : Option (List Int)
  c : Option (List Int)
  hap : Option (List Char)
  rs : Option (List Char)
  ihap : Option (List Int)
  irs : Option (List Int)
deriving DecidableEq

/-- A freshly declared `testcase` handed to `read_testcase`. -/
def emptyTC : testcase := ⟨none, none, none, none, none, none, none, none, none, none⟩

/-- The quality loop body: `_q = normalize(q[x]); tc->q[x] = (_q < 6) ? 6 : _q`
for `x = 0..rslen-1`. -/
def qualArr (normalize : Char → Int) (tok : List Char) (n : Nat) : List Int :=
  (List.range n).map fun x =>
    if normalize (tok.getD x nullChar) < 6 then 6 else normalize (tok.getD x nullChar)

/-- The insertion/deletion/continuation loop body:
`tc->i[x] = normalize(i[x])`, etc., with no floor. -/
def scoreArr (normalize : Char → Int) (tok : List Char) (n : Nat) : List Int :=
  (List.range n).map fun x => normalize (tok.getD x nullChar)

/-- The state of `*tc` after `read_testcase` runs to completion on a line
whose first six tokens are `toks[0..5]`: lengths from `strlen`, the four
normalized score arrays, and the raw-character-widened copies of both
sequences. -/
def ingestSuccess (normalize : Char → Int) (toks : List (List Char)) : testcase :=
  { rslen := some ((toks.getD 1 []).length)
    haplen := some ((toks.getD 0 []).length)
    q := some (qualArr normalize (toks.getD 2 []) (toks.getD 1 []).length)
    i := some (scoreArr normalize (toks.getD 3 []) (toks.getD 1 []).length)
    d := some (scoreArr normalize (toks.getD 4 []) (toks.getD 1 []).length)
    c := some (scoreArr normalize (toks.getD 5 []) (toks.getD 1 []).length)
    hap := some (toks.getD 0 [])
    rs := some (toks.getD 1 [])
    ihap := some ((toks.getD 0 []).map charToInt)
    irs := some ((toks.getD 1 []).map charToInt) }

/-- The state of `*tc` when `read_testcase` bails out on a line with fewer
than six tokens: `sscanf` has already written the matched tokens into the
fresh `tc->hap` and `tc->rs` buffers (unmatched buffers keep indeterminate
malloc contents, `none`), `tc->ihap`/`tc->irs` were reassigned to fresh
uninitialized buffers, and every other field is untouched. -/
def malformedCase (tc : testcase) (toks : List (List Char)) : testcase :=
  { tc with
    hap := if 1 ≤ toks.length then some (toks.getD 0 []) else none
    rs := if 2 ≤ toks.length then some (toks.getD 1 []) else none
    ihap := none
    irs := none }

/-- `read_testcase(tc)`: `input = none` models `getline` hitting end of
input (return `-1`, `*tc` untouched); otherwise the line is tokenized,
fewer than six tokens make `sscanf` return short (return `-1`), and a line
with at least six tokens is ingested in full (return `0`). -/
def read_testcase (normalize : Char → Int) (input : Option (List Char))
    (tc : testcase) : Int × testcase :=
  match input with
  | none => (-1, tc)
  | some line =>
    if (tokenize line).length < 6 then (-1, malformedCase tc (tokenize line))
    else (0, ingestSuccess normalize (tokenize line))

/-- Modelled from the spec: the collaborator `int normalize(char)` is only
declared in this header; per the spec it decodes one score character to its
integer value, with `'!'` decoding to 0 (a phred+33 decode). Used only to
instantiate concrete witnesses; all general theorems quantify over
`normalize`. -/
def normalizePhred (ch : Char) : Int := (ch.toNat : Int) - 33

/-- On a line with at least six tokens, `read_testcase` returns 0 and the
fully ingested case. -/
theorem read_testcase_success (normalize : Char → Int) (line : List Char)
    (tc : testcase) (h6 : 6 ≤ (tokenize line).length) :
    read_testcase normalize (some line) tc =
      (0, ingestSuccess normalize (tokenize line)) := by
  simp only [read_testcase]
  rw [if_neg (by omega)]

/-- Element `x < n` of the quality array is the normalized score floored at 6. -/
theorem qualArr_getElem (normalize : Char → Int) (tok : List Char) (n x : Nat)
    (hx : x < n) :
    (qualArr normalize tok n)[x]? =
      some (max (normalize (tok.getD x nullChar)) 6) := by
  unfold qualArr
  rw [List.getElem?_map, List.getElem?_range hx]
  simp only [Option.map_some']
  rcases le_or_lt 6 (normalize (tok.getD x nullChar)) with h | h
  · rw [if_neg (not_lt.mpr h), max_eq_left h]
  · rw [if_pos h, max_eq_right h.le]

/-- Element `x < n` of an i/d/c score array is exactly the normalized score. -/
theorem scoreArr_getElem (normalize : Char → Int) (tok : List Char) (n x : Nat)
    (hx : x < n) :
    (scoreArr normalize tok n)[x]? = some (normalize (tok.getD x nullChar)) := by
  unfold scoreArr
  rw [List.getElem?_map, List.getElem?_range hx]
  rfl

/-- Every entry of the quality array is at least 6. -/
theorem qualArr_mem_ge (normalize : Char → Int) (tok : List Char) (n : Nat) :
    ∀ v ∈ qualArr normalize tok n, 6 ≤ v := by
  intro v hv
  unfold qualArr at hv
  rcases List.mem_map.mp hv with ⟨x, _, rfl⟩
  split
  · exact le_refl _
  · omega

/-- C2 counterexample: on a concrete malformed line (one token) the
return value of `read_testcase` equals the end-of-input return value `-1`
exactly, so the caller cannot tell the two conditions apart. -/
theorem C2_counterexample_same_return :
    (read_testcase normalizePhred (some ("ACGT".data)) emptyTC).fst =
      (read_testcase normalizePhred none emptyTC).fst ∧
    (read_testcase normalizePhred (some ("ACGT".data)) emptyTC).fst = -1 := by
  decide

/-- C2 (amended): a line with fewer than six tokens makes `read_testcase`
return `-1` — a parse-failure signal, but the very same value returned for
end-of-input, so the two are not distinguishable by the return value. -/
theorem C2_malformed_signal_equals_eof (normalize : Char → Int)
    (line : List Char) (tc : testcase) (hlt : (tokenize line).length < 6) :
    (read_testcase normalize (some line) tc).fst = -1 ∧
    (read_testcase normalize none tc).fst = -1 ∧
    (read_testcase normalize (some line) tc).fst =
      (read_testcase normalize none tc).fst := by
  have h1 : (read_testcase normalize (some line) tc).fst = -1 := by
    simp only [read_testcase]
    rw [if_pos hlt]
  exact ⟨h1, rfl, h1⟩

/-- Witness for the amended C2 on the concrete malformed line "AC GT !!". -/
theorem C2_witness :
    (read_testcase normalizePhred (some ("AC GT !!".data)) emptyTC).fst = -1 ∧
    (read_testcase normalizePhred none emptyTC).fst = -1 ∧
    (read_testcase normalizePhred (some ("AC GT !!".data)) emptyTC).fst =
      (read_testcase normalizePhred none emptyTC).fst :=
  C2_malformed_signal_equals_eof normalizePhred ("AC GT !!".data) emptyTC (by decide)

/-- C8 counterexample: on the concrete malformed line "AC GT !!" (three
tokens) `read_testcase` fails with `-1`, yet the caller-visible case already
holds the two parsed tokens in `hap` and `rs` — a partial ingestion result. -/
theorem C8_counterexample_partial_population :
    (read_testcase normalizePhred (some ("AC GT !!".data)) emptyTC).fst = -1 ∧
    (read_testcase normalizePhred (some ("AC GT !!".data)) emptyTC).snd.hap =
      some ['A', 'C'] ∧
    (read_testcase normalizePhred (some ("AC GT !!".data)) emptyTC).snd.rs =
      some ['G', 'T'] := by
  decide

/-- C8 (amended): on a malformed record the length fields and every
per-position array stay unpopulated — but the `hap`/`rs` buffers are
overwritten and hold whatever tokens `sscanf` matched before failing, and
`ihap`/`irs` are reassigned to uninitialized storage. -/
theorem C8_malformed_fields (normalize : Char → Int) (line : List Char)
    (tc : testcase) (hlt : (tokenize line).length < 6) :
    (read_testcase normalize (some line) tc).fst = -1 ∧
    (read_testcase normalize (some line) tc).snd.haplen = tc.haplen ∧
    (read_testcase normalize (some line) tc).snd.rslen = tc.rslen ∧
    (read_testcase normalize (some line) tc).snd.q = tc.q ∧
    (read_testcase normalize (some line) tc).snd.i = tc.i ∧
    (read_testcase normalize (some line) tc).snd.d = tc.d ∧
    (read_testcase normalize (some line) tc).snd.c = tc.c ∧
    (read_testcase normalize (some line) tc).snd.ihap = none ∧
    (read_testcase normalize (some line) tc).snd.irs = none ∧
    (read_testcase normalize (some line) tc).snd.hap =
      (if 1 ≤ (tokenize line).length then some ((tokenize line).getD 0 []) else none) ∧
    (read_testcase normalize (some line) tc).snd.rs =
      (if 2 ≤ (tokenize line).length then some ((tokenize line).getD 1 []) else none) := by
  have hrw : read_testcase normalize (some line) tc =
      (-1, malformedCase tc (tokenize line)) := by
    simp only [read_testcase]
    rw [if_pos hlt]
  rw [hrw]
  exact ⟨rfl, rfl, rfl, rfl, rfl, rfl, rfl, rfl, rfl, rfl, rfl⟩

/-- Witness for the amended C8 on the concrete malformed line "AC GT !!". -/
theorem C8_witness :
    (read_testcase normalizePhred (some ("AC GT !!".data)) emptyTC).fst = -1 ∧
    (read_testcase normalizePhred (some ("AC GT !!".data)) emptyTC).snd.haplen = none ∧
    (read_testcase normalizePhred (some ("AC GT !!".data)) emptyTC).snd.rslen = none ∧
    (read_testcase normalizePhred (some ("AC GT !!".data)) emptyTC).snd.q = none ∧
    (read_testcase normalizePhred (some ("AC GT !!".data)) emptyTC).snd.i = none ∧
    (read_testcase normalizePhred (some ("AC GT !!".data)) emptyTC).snd.d = none ∧
    (read_testcase normalizePhred (some ("AC GT !!".data)) emptyTC).snd.c = none ∧
    (read_testcase normalizePhred (some ("AC GT !!".data)) emptyTC).snd.ihap = none ∧
    (read_testcase normalizePhred (some ("AC GT !!".data)) emptyTC).snd.irs = none ∧
    (read_testcase normalizePhred (some ("AC GT !!".data)) emptyTC).snd.hap =
      some ['A', 'C'] ∧
    (read_testcase normalizePhred (some ("AC GT !!".data)) emptyTC).snd.rs =
      some ['G', 'T'] := by
  have h := C8_malformed_fields normalizePhred ("AC GT !!".data) emptyTC (by decide)
  exact ⟨h.1, h.2.1, h.2.2.1, h.2.2.2.1, h.2.2.2.2.1, h.2.2.2.2.2.1,
         h.2.2.2.2.2.2.1, h.2.2.2.2.2.2.2.1, h.2.2.2.2.2.2.2.2.1,
         (h.2.2.2.2.2.2.2.2.2.1).trans (by decide),
         (h.2.2.2.2.2.2.2.2.2.2).trans (by decide)⟩

/-- C3: on every successfully ingested case, `quality[x]` is the normalized
score character floored at 6 (so every stored quality is at least 6), while
the insertion, deletion, and continuation scores are stored exactly as
`normalize` returns them. -/
theorem C3_quality_floor (normalize : Char → Int) (line : List Char)
    (tc : testcase) (x : ℕ) (h6 : 6 ≤ (tokenize line).length)
    (hx : x < ((tokenize line).getD 1 []).length) :
    (((read_testcase normalize (some line) tc).snd.q).getD [])[x]? =
      some (max (normalize (((tokenize line).getD 2 []).getD x nullChar)) 6) ∧
    (((read_testcase normalize (some line) tc).snd.i).getD [])[x]? =
      some (normalize (((tokenize line).getD 3 []).getD x nullChar)) ∧
    (((read_testcase normalize (some line) tc).snd.d).getD [])[x]? =
      some (normalize (((tokenize line).getD 4 []).getD x nullChar)) ∧
    (((read_testcase normalize (some line) tc).snd.c).getD [])[x]? =
      some (normalize (((tokenize line).getD 5 []).getD x nullChar)) ∧
    (∀ v ∈ ((read_testcase normalize (some line) tc).snd.q).getD [], 6 ≤ v) := by
  rw [read_testcase_success normalize line tc h6]
  exact ⟨qualArr_getElem normalize _ _ x hx, scoreArr_getElem normalize _ _ x hx,
         scoreArr_getElem normalize _ _ x hx, scoreArr_getElem normalize _ _ x hx,
         qualArr_mem_ge normalize _ _⟩

/-- Witness for C3 on the spec's round-trip example line "AC GT !! !! !! !!"
at position 0: `'!'` normalizes to 0, floored to 6 in `quality`, stored as 0
in the other three arrays. -/
theorem C3_witness :
    (((read_testcase normalizePhred (some ("AC GT !! !! !! !!".data)) emptyTC).snd.q).getD [])[0]? =
      some 6 ∧
    (((read_testcase normalizePhred (some ("AC GT !! !! !! !!".data)) emptyTC).snd.i).getD [])[0]? =
      some 0 ∧
    (((read_testcase normalizePhred (some ("AC GT !! !! !! !!".data)) emptyTC).snd.d).getD [])[0]? =
      some 0 ∧
    (((read_testcase normalizePhred (some ("AC GT !! !! !! !!".data)) emptyTC).snd.c).getD [])[0]? =
      some 0 := by
  have h := C3_quality_floor normalizePhred ("AC GT !! !! !! !!".data) emptyTC 0
    (by decide) (by decide)
  exact ⟨h.1.trans (by decide), h.2.1.trans (by decide),
         h.2.2.1.trans (by decide), h.2.2.2.1.trans (by decide)⟩

/-- C4: on every successfully ingested case, `ihap` and `irs` are the raw
character values of the haplotype resp. read sequence widened to integers;
on the spec's example ("AC", "GT") this gives [65,67] and [71,84], which
differ from what routing through the `ConvertChar` table would give. -/
theorem C4_raw_character_codes (normalize : Char → Int) (line : List Char)
    (tc : testcase) (h6 : 6 ≤ (tokenize line).length) :
    (read_testcase normalize (some line) tc).snd.ihap =
      some (((tokenize line).getD 0 []).map charToInt) ∧
    (read_testcase normalize (some line) tc).snd.irs =
      some (((tokenize line).getD 1 []).map charToInt) ∧
    (read_testcase normalizePhred (some ("AC GT !! !! !! !!".data)) emptyTC).snd.ihap =
      some [65, 67] ∧
    (read_testcase normalizePhred (some ("AC GT !! !! !! !!".data)) emptyTC).snd.irs =
      some [71, 84] ∧
    (read_testcase normalizePhred (some ("AC GT !! !! !! !!".data)) emptyTC).snd.ihap ≠
      some (['A', 'C'].map (fun ch => (((ConvertChar.get ch.toNat).getD 0 : ℕ) : Int))) ∧
    (read_testcase normalizePhred (some ("AC GT !! !! !! !!".data)) emptyTC).snd.irs ≠
      some (['G', 'T'].map (fun ch => (((ConvertChar.get ch.toNat).getD 0 : ℕ) : Int))) := by
  rw [read_testcase_success normalize line tc h6]
  refine ⟨rfl, rfl, ?_, ?_, ?_, ?_⟩
  · decide
  · decide
  · decide
  · decide

/-- Witness for C4 on the spec's round-trip example line. -/
theorem C4_witness :
    (read_testcase normalizePhred (some ("AC GT !! !! !! !!".data)) emptyTC).snd.ihap =
      some [65, 67] ∧
    (read_testcase normalizePhred (some ("AC GT !! !! !! !!".data)) emptyTC).snd.irs =
      some [71, 84] := by
  have h := C4_raw_character_codes normalizePhred ("AC GT !! !! !! !!".data) emptyTC
    (by decide)
  exact ⟨h.1.trans (by decide), h.2.1.trans (by decide)⟩
